import Mathlib

/-!
Verification of `resolve-ioctl-val.c`, a diagnostic program that prints the
numeric values of three constants from `linux/fs.h` as lowercase hexadecimal.

The whole program is:

  void main() {
    printf("FS_IOC_FSGETXATTR: 0x%x\n", FS_IOC_FSGETXATTR);
    printf("FS_IOC_FSSETXATTR: 0x%x\n", FS_IOC_FSSETXATTR);
    printf("FS_XFLAG_PROJINHERIT: 0x%x\n", FS_XFLAG_PROJINHERIT);
  }

The three constants are platform-defined compile-time values; we model a
platform as a record of the three numeric values.  The `%x` conversion of C's
printf consumes an `unsigned int` and renders it in lowercase hexadecimal with
no padding (value 0 renders as "0"); we model it as `printfHex`, with the
32-bit width of `unsigned int` made explicit by a `% 2 ^ 32`.
-/

namespace ResolveIoctlVal

/-- A platform/build: the numeric values the host headers give to the three
constants the program prints.  In `linux/fs.h` all three have type
`unsigned int`, so a real platform instantiates each field below 2 ^ 32. -/
structure Platform where
  FS_IOC_FSGETXATTR : Nat
  FS_IOC_FSSETXATTR : Nat
  FS_XFLAG_PROJINHERIT : Nat

/-- The character printf's `%x` uses for one hexadecimal digit: `'0' + d`
for `d < 10`, else `'a' + (d - 10)` (lowercase). -/
def hexDigitChar (d : Nat) : Char :=
  if d < 10 then Char.ofNat (48 + d) else Char.ofNat (87 + d)

/-- Digits of `n` in base 16, most significant first, empty for 0.
Fuel-based so that it is structurally recursive (the fuel only needs to be
at least `n`, since `n / 16 < n` for `n > 0`). -/
def hexDigitsAux : Nat → Nat → List Char
  | 0, _ => []
  | fuel + 1, n =>
    if n = 0 then [] else hexDigitsAux fuel (n / 16) ++ [hexDigitChar (n % 16)]

/-- Digits of `n` in base 16, most significant first, empty for 0. -/
def hexDigits (n : Nat) : List Char := hexDigitsAux n n

/-- The string printf's `%x` produces for value `n`: lowercase hexadecimal,
no leading zeros, and the single digit "0" for the value 0. -/
def toHex (n : Nat) : String := if n = 0 then "0" else String.mk (hexDigits n)

/-- printf's `%x` conversion: it reads its argument as an `unsigned int`
(32 bits on the platforms `linux/fs.h` targets), hence the explicit
`% 2 ^ 32`, and renders it with `toHex`. -/
def printfHex (v : Nat) : String := toHex (v % 2 ^ 32)

/-- The first line printed: `printf("FS_IOC_FSGETXATTR: 0x%x\n", ...)`. -/
def line1 (p : Platform) : String :=
  "FS_IOC_FSGETXATTR: 0x" ++ printfHex p.FS_IOC_FSGETXATTR ++ "\n"

/-- The second line printed: `printf("FS_IOC_FSSETXATTR: 0x%x\n", ...)`. -/
def line2 (p : Platform) : String :=
  "FS_IOC_FSSETXATTR: 0x" ++ printfHex p.FS_IOC_FSSETXATTR ++ "\n"

/-- The third line printed: `printf("FS_XFLAG_PROJINHERIT: 0x%x\n", ...)`. -/
def line3 (p : Platform) : String :=
  "FS_XFLAG_PROJINHERIT: 0x" ++ printfHex p.FS_XFLAG_PROJINHERIT ++ "\n"

/-- Everything `main` writes to standard output: the three printf calls of
lines 17-19 of the source, in order, and nothing else. -/
def mainOutput (p : Platform) : String := line1 p ++ line2 p ++ line3 p

/-- An observable effect of the process on the outside world.  The source
only ever calls `printf` (a standard-output write); `writeStderr` is included
so that "the program never writes to standard error" is a real statement
about the trace rather than a vacuous one. -/
inductive Effect where
  | writeStdout (s : String)
  | writeStderr (s : String)

/-- The effect trace of `main`: its body is the straight-line sequence of the
three printf calls, so the trace is exactly three standard-output writes. -/
def programTrace (p : Platform) : List Effect :=
  [Effect.writeStdout (line1 p), Effect.writeStdout (line2 p),
    Effect.writeStdout (line3 p)]

/-- The world state a process can affect: the two output streams, the file
system, the environment, and the platform's constant definitions. -/
structure World where
  stdout : String
  stderr : String
  files : List (String × String)
  env : List (String × String)
  consts : Platform

/-- How one effect changes the world: a write appends to the corresponding
stream and touches nothing else. -/
def applyEffect (w : World) : Effect → World
  | Effect.writeStdout s => { w with stdout := w.stdout ++ s }
  | Effect.writeStderr s => { w with stderr := w.stderr ++ s }

/-- Running `main` on a world: folding its effect trace over the world. -/
def runMain (w : World) : World := (programTrace w.consts).foldl applyEffect w

/-- Everything the operating system hands a run of the process that the
program could in principle consult: command-line arguments, environment
variables, and any source of randomness (summarised as a seed). -/
structure RunContext where
  args : List String
  env : List (String × String)
  randomSeed : Nat

/-- The standard output of one run of the program.  `main` is declared with
no parameters and its body (source lines 16-20) reads neither `argv`, nor the
environment, nor any source of randomness, so the output is `mainOutput` of
the platform, whatever the run context holds. -/
def runProgram (p : Platform) (_ctx : RunContext) : String := mainOutput p

/-- The effect trace of `main` when each printf call is allowed to fail:
`outcome i` is the return value of the `i`-th printf (negative on failure).
The source never binds or tests any printf result, so every one of the three
writes is attempted no matter what the earlier outcomes were; the let
bindings mirror the three discarded return values. -/
def traceUnderOutcomes (p : Platform) (outcome : Nat → Int) : List Effect :=
  let _r1 : Int := outcome 0
  let _r2 : Int := outcome 1
  let _r3 : Int := outcome 2
  [Effect.writeStdout (line1 p), Effect.writeStdout (line2 p),
    Effect.writeStdout (line3 p)]

/-- Modelled from the build convention, not from a statement in the source:
the source declares `void main()` (line 16) with no return statement, so C99
5.1.2.2.3 leaves the termination status unspecified.  Under the default
gcc/x86-64 build the spec itself describes (`gcc resolve-ioctl-val.c`),
falling off the end of `main` leaves in the return register the value of the
last call made, i.e. the final printf's return value — the number of
characters of the third line — which the OS truncates modulo 256. -/
def mainExitStatusGcc (p : Platform) : Nat := (line3 p).length % 256

/-- The concrete platform of the spec's testable scenario:
`FS_IOC_FSGETXATTR = 0x5431`, `FS_IOC_FSSETXATTR = 0x5432`,
`FS_XFLAG_PROJINHERIT = 0x00000200`. -/
def specPlatform : Platform :=
  { FS_IOC_FSGETXATTR := 0x5431
    FS_IOC_FSSETXATTR := 0x5432
    FS_XFLAG_PROJINHERIT := 0x200 }

/-- The sixteen lowercase hexadecimal digit characters. -/
def lowerHexChars : List Char := "0123456789abcdef".data

/-- A nonempty string all of whose characters are lowercase hex digits. -/
def isLowerHexStr (s : String) : Prop :=
  s.data ≠ [] ∧ ∀ c ∈ s.data, c ∈ lowerHexChars

/-- Numeric value of one lowercase hexadecimal digit character. -/
def hexCharVal (c : Char) : Nat :=
  if 97 ≤ c.toNat then c.toNat - 87 else c.toNat - 48

/-- Numeric value of a big-endian string of hexadecimal digit characters. -/
def parseHex (l : List Char) : Nat :=
  l.foldl (fun a c => 16 * a + hexCharVal c) 0

/-- Stated from the spec's words: `s` is "the lowercase-hexadecimal encoding
of `v`, no leading zero-padding" — it is nonempty, made of lowercase hex
digit characters, denotes `v`, and only starts with the digit 0 when it is
the one-digit encoding of 0 itself. -/
def hexEncodes (v : Nat) (s : List Char) : Prop :=
  s ≠ [] ∧ (∀ c ∈ s, c ∈ lowerHexChars) ∧ parseHex s = v ∧
    (s.head? = some '0' → s = ['0'])

theorem hexCharVal_hexDigitChar (d : Nat) (h : d < 16) :
    hexCharVal (hexDigitChar d) = d := by
  interval_cases d <;> decide

theorem hexDigitChar_mem (d : Nat) (h : d < 16) :
    hexDigitChar d ∈ lowerHexChars := by
  interval_cases d <;> decide

theorem hexDigitChar_ne_zero (d : Nat) (h1 : 0 < d) (h2 : d < 16) :
    hexDigitChar d ≠ '0' := by
  interval_cases d <;> decide

theorem hexDigitsAux_zero (fuel : Nat) : hexDigitsAux fuel 0 = [] := by
  cases fuel <;> simp [hexDigitsAux]

theorem foldl_hexDigitsAux (fuel : Nat) :
    ∀ n a, n ≤ fuel →
      List.foldl (fun a c => 16 * a + hexCharVal c) a (hexDigitsAux fuel n) =
        a * 16 ^ (hexDigitsAux fuel n).length + n := by
  induction fuel with
  | zero =>
    intro n a hn
    have hn0 : n = 0 := Nat.le_zero.mp hn
    subst hn0
    simp [hexDigitsAux]
  | succ fuel ih =>
    intro n a hn
    by_cases h0 : n = 0
    · subst h0
      simp [hexDigitsAux]
    · have hdiv : n / 16 ≤ fuel := by
        have := Nat.div_lt_self (Nat.pos_of_ne_zero h0) (by norm_num : 1 < 16)
        omega
      have hmod : n % 16 < 16 := Nat.mod_lt n (by norm_num)
      simp only [hexDigitsAux, if_neg h0, List.foldl_append, List.foldl_cons,
        List.foldl_nil, List.length_append, List.length_cons, List.length_nil]
      rw [ih (n / 16) a hdiv, hexCharVal_hexDigitChar (n % 16) hmod]
      rw [pow_succ, ← mul_assoc]
      generalize a * 16 ^ (hexDigitsAux fuel (n / 16)).length = M
      omega

theorem parseHex_hexDigits (n : Nat) : parseHex (hexDigits n) = n := by
  have h := foldl_hexDigitsAux n n 0 (le_refl n)
  simpa [parseHex, hexDigits] using h

theorem hexDigitsAux_head (fuel : Nat) :
    ∀ n, 0 < n → n ≤ fuel →
      ∃ c cs, hexDigitsAux fuel n = c :: cs ∧ c ≠ '0' := by
  induction fuel with
  | zero => intro n h1 h2; omega
  | succ fuel ih =>
    intro n h1 h2
    have h0 : n ≠ 0 := Nat.pos_iff_ne_zero.mp h1
    by_cases hq : n / 16 = 0
    · have hn16 : n < 16 := by omega
      refine ⟨hexDigitChar (n % 16), [], ?_, ?_⟩
      · simp [hexDigitsAux, h0, hq, hexDigitsAux_zero]
      · rw [Nat.mod_eq_of_lt hn16]
        exact hexDigitChar_ne_zero n h1 hn16
    · have hqpos : 0 < n / 16 := Nat.pos_of_ne_zero hq
      have hqle : n / 16 ≤ fuel := by
        have := Nat.div_lt_self h1 (by norm_num : 1 < 16)
        omega
      obtain ⟨c, cs, hcs, hcne⟩ := ih (n / 16) hqpos hqle
      refine ⟨c, cs ++ [hexDigitChar (n % 16)], ?_, hcne⟩
      simp [hexDigitsAux, h0, hcs]

theorem hexDigitsAux_mem (fuel : Nat) :
    ∀ n c, c ∈ hexDigitsAux fuel n → c ∈ lowerHexChars := by
  induction fuel with
  | zero => intro n c hc; simp [hexDigitsAux] at hc
  | succ fuel ih =>
    intro n c hc
    by_cases h0 : n = 0
    · subst h0; simp [hexDigitsAux] at hc
    · simp only [hexDigitsAux, if_neg h0, List.mem_append,
        List.mem_singleton] at hc
      rcases hc with hc | hc
      · exact ih (n / 16) c hc
      · subst hc
        exact hexDigitChar_mem (n % 16) (Nat.mod_lt n (by norm_num))

theorem data_toHex_pos (n : Nat) (h : 0 < n) : (toHex n).data = hexDigits n := by
  rw [toHex, if_neg (Nat.pos_iff_ne_zero.mp h)]

theorem hexEncodes_toHex (v : Nat) : hexEncodes v (toHex v).data := by
  by_cases h : v = 0
  · subst h
    exact ⟨by decide, by decide, by decide, by decide⟩
  · have hpos : 0 < v := Nat.pos_of_ne_zero h
    obtain ⟨c, cs, hcs, hcne⟩ := hexDigitsAux_head v v hpos (le_refl v)
    have hdata : (toHex v).data = hexDigits v := data_toHex_pos v hpos
    have hd : hexDigits v = c :: cs := hcs
    refine ⟨?_, ?_, ?_, ?_⟩
    · rw [hdata, hd]
      exact List.cons_ne_nil c cs
    · intro x hx
      rw [hdata] at hx
      exact hexDigitsAux_mem v v x hx
    · rw [hdata]
      exact parseHex_hexDigits v
    · intro hhead
      rw [hdata, hd] at hhead
      simp only [List.head?_cons, Option.some.injEq] at hhead
      exact (hcne hhead).elim

theorem isLowerHexStr_toHex (v : Nat) : isLowerHexStr (toHex v) := by
  obtain ⟨h1, h2, _, _⟩ := hexEncodes_toHex v
  exact ⟨h1, h2⟩

theorem printfHex_eq_of_lt (v : Nat) (h : v < 2 ^ 32) :
    printfHex v = toHex v := by
  rw [printfHex, Nat.mod_eq_of_lt h]

/-- Claim C1: every run's standard output is exactly three newline-terminated
lines, in the fixed order FS_IOC_FSGETXATTR, FS_IOC_FSSETXATTR,
FS_XFLAG_PROJINHERIT, each `<ConstantName>: 0x<lowercase hex>`, with nothing
before, between or after them (the hex parts are nonempty strings of
lowercase hex digit characters, so they contain no newline). -/
theorem claim1_three_lines_fixed_order (p : Platform) :
    ∃ h1 h2 h3 : String,
      isLowerHexStr h1 ∧ isLowerHexStr h2 ∧ isLowerHexStr h3 ∧
        mainOutput p =
          ("FS_IOC_FSGETXATTR: 0x" ++ h1 ++ "\n") ++
            ("FS_IOC_FSSETXATTR: 0x" ++ h2 ++ "\n") ++
              ("FS_XFLAG_PROJINHERIT: 0x" ++ h3 ++ "\n") :=
  ⟨printfHex p.FS_IOC_FSGETXATTR, printfHex p.FS_IOC_FSSETXATTR,
    printfHex p.FS_XFLAG_PROJINHERIT,
    isLowerHexStr_toHex (p.FS_IOC_FSGETXATTR % 2 ^ 32),
    isLowerHexStr_toHex (p.FS_IOC_FSSETXATTR % 2 ^ 32),
    isLowerHexStr_toHex (p.FS_XFLAG_PROJINHERIT % 2 ^ 32), rfl⟩

/-- Claim C2: for platform-defined values of the constants (values of C type
`unsigned int`, hence below 2 ^ 32), the text printed after each `0x` is
byte for byte the lowercase-hexadecimal encoding of that constant's numeric
value with no leading zero-padding. -/
theorem claim2_value_is_hex_encoding (p : Platform)
    (hb1 : p.FS_IOC_FSGETXATTR < 2 ^ 32) (hb2 : p.FS_IOC_FSSETXATTR < 2 ^ 32)
    (hb3 : p.FS_XFLAG_PROJINHERIT < 2 ^ 32) :
    ∃ h1 h2 h3 : String,
      mainOutput p =
        ("FS_IOC_FSGETXATTR: 0x" ++ h1 ++ "\n") ++
          ("FS_IOC_FSSETXATTR: 0x" ++ h2 ++ "\n") ++
            ("FS_XFLAG_PROJINHERIT: 0x" ++ h3 ++ "\n") ∧
      hexEncodes p.FS_IOC_FSGETXATTR h1.data ∧
      hexEncodes p.FS_IOC_FSSETXATTR h2.data ∧
      hexEncodes p.FS_XFLAG_PROJINHERIT h3.data := by
  refine ⟨printfHex p.FS_IOC_FSGETXATTR, printfHex p.FS_IOC_FSSETXATTR,
    printfHex p.FS_XFLAG_PROJINHERIT, rfl, ?_, ?_, ?_⟩
  · rw [printfHex_eq_of_lt p.FS_IOC_FSGETXATTR hb1]
    exact hexEncodes_toHex p.FS_IOC_FSGETXATTR
  · rw [printfHex_eq_of_lt p.FS_IOC_FSSETXATTR hb2]
    exact hexEncodes_toHex p.FS_IOC_FSSETXATTR
  · rw [printfHex_eq_of_lt p.FS_XFLAG_PROJINHERIT hb3]
    exact hexEncodes_toHex p.FS_XFLAG_PROJINHERIT

/-- Witness for claim C2 at the spec's concrete platform. -/
theorem claim2_witness :
    ∃ h1 h2 h3 : String,
      mainOutput specPlatform =
        ("FS_IOC_FSGETXATTR: 0x" ++ h1 ++ "\n") ++
          ("FS_IOC_FSSETXATTR: 0x" ++ h2 ++ "\n") ++
            ("FS_XFLAG_PROJINHERIT: 0x" ++ h3 ++ "\n") ∧
      hexEncodes specPlatform.FS_IOC_FSGETXATTR h1.data ∧
      hexEncodes specPlatform.FS_IOC_FSSETXATTR h2.data ∧
      hexEncodes specPlatform.FS_XFLAG_PROJINHERIT h3.data :=
  claim2_value_is_hex_encoding specPlatform (by decide) (by decide) (by decide)

/-- Claim C3 (code bug evidence): the source declares `void main()` with no
return statement, so the termination status is not the claimed 0; under the
spec's own build recipe (default gcc on x86-64) the status is the final
printf's character count.  On the spec's concrete platform the third line
`FS_XFLAG_PROJINHERIT: 0x200\n` has 28 characters, so the process exits with
status 28, not 0. -/
theorem claim3_exit_status_not_zero :
    mainExitStatusGcc specPlatform = 28 ∧ mainExitStatusGcc specPlatform ≠ 0 := by
  constructor <;> decide

/-- Claim C4: on a platform where FS_IOC_FSGETXATTR = 0x5431,
FS_IOC_FSSETXATTR = 0x5432 and FS_XFLAG_PROJINHERIT = 0x00000200, the
standard output is exactly the three newline-terminated lines of the spec's
concrete scenario. -/
theorem claim4_concrete_platform_output :
    mainOutput specPlatform =
      "FS_IOC_FSGETXATTR: 0x5431\nFS_IOC_FSSETXATTR: 0x5432\nFS_XFLAG_PROJINHERIT: 0x200\n" := by
  rfl

/-- Claim C5: on one platform/build, two runs given any command-line
arguments and any environments produce identical output — the output does
not depend on arguments or environment. -/
theorem claim5_args_env_ignored (p : Platform) (args1 args2 : List String)
    (env1 env2 : List (String × String)) (seed : Nat) :
    runProgram p ⟨args1, env1, seed⟩ = runProgram p ⟨args2, env2, seed⟩ := rfl

/-- Claim C6: the program is deterministic — any two runs on the same
platform/build, whatever the OS hands them (arguments, environment,
randomness), produce byte-for-byte identical output. -/
theorem claim6_deterministic (p : Platform) (ctx1 ctx2 : RunContext) :
    runProgram p ctx1 = runProgram p ctx2 := rfl

/-- Claim C7: the embedding of `main` is a total function whose effect trace
is, for every platform, the same straight-line finite sequence: exactly
three writes, with no branch and no other reachable behaviour. -/
theorem claim7_straight_line_termination (p : Platform) :
    (programTrace p).length = 3 ∧
      ∃ s1 s2 s3, programTrace p =
        [Effect.writeStdout s1, Effect.writeStdout s2, Effect.writeStdout s3] :=
  ⟨rfl, line1 p, line2 p, line3 p, rfl⟩

/-- Claim C8: running `main` changes nothing in the world except appending
the three lines to standard output: standard error, the file system, the
environment and the platform's constants are untouched. -/
theorem claim8_no_side_effects_beyond_stdout (w : World) :
    (runMain w).stderr = w.stderr ∧ (runMain w).files = w.files ∧
      (runMain w).env = w.env ∧ (runMain w).consts = w.consts ∧
      (runMain w).stdout = w.stdout ++ mainOutput w.consts := by
  refine ⟨rfl, rfl, rfl, rfl, ?_⟩
  show w.stdout ++ line1 w.consts ++ line2 w.consts ++ line3 w.consts =
    w.stdout ++ (line1 w.consts ++ line2 w.consts ++ line3 w.consts)
  apply String.ext
  simp [String.data_append, List.append_assoc]

/-- Claim C9: `%x` reads the constant at its own C type's width (`unsigned
int` in `linux/fs.h`): for every value representable at that width, the
printed hexadecimal digits denote exactly that value — nothing is truncated
away and no padding digits widen it (a leading 0 occurs only as the sole
digit of the value 0). -/
theorem claim9_native_width_faithful (v : Nat) (h : v < 2 ^ 32) :
    parseHex (printfHex v).data = v ∧
      ((printfHex v).data.head? = some '0' → (printfHex v).data = ['0']) := by
  rw [printfHex_eq_of_lt v h]
  obtain ⟨_, _, hparse, hhead⟩ := hexEncodes_toHex v
  exact ⟨hparse, hhead⟩

/-- Witness for claim C9 at the real Linux value of FS_IOC_FSGETXATTR. -/
theorem claim9_witness :
    parseHex (printfHex 0x801c5831).data = 0x801c5831 ∧
      ((printfHex 0x801c5831).data.head? = some '0' →
        (printfHex 0x801c5831).data = ['0']) :=
  claim9_native_width_faithful 0x801c5831 (by decide)

/-- Claim C10: the three printf calls are unconditional — the attempted
write sequence is the same whatever each printf returns (even a failure
code), it is the full three-line trace, and it never touches standard
error; the program then terminates as on a successful run. -/
theorem claim10_prints_unconditional (p : Platform) (o1 o2 : Nat → Int) :
    traceUnderOutcomes p o1 = traceUnderOutcomes p o2 ∧
      traceUnderOutcomes p o1 = programTrace p ∧
      ∀ e ∈ traceUnderOutcomes p o1, ∃ s, e = Effect.writeStdout s := by
  refine ⟨rfl, rfl, ?_⟩
  intro e he
  simp only [traceUnderOutcomes, List.mem_cons, List.not_mem_nil,
    or_false] at he
  rcases he with h | h | h <;> exact ⟨_, h⟩

end ResolveIoctlVal
